import Mathlib

/-!
# Verification of the worktree inventory & cleanup reconciliation engine

Shallow embedding of the core logic of `git-worktree-manager`:

* `src/src/utils/git.ts` — worktree listing/parsing, path containment,
  unpushed-commit detection, branch deletion argument construction;
* the `clean` command — classification of stale worktrees, abandoned
  folders and orphan worktrees, and the destructive removal loop;
* the GitHub helper `getPRStatus` — pull-request state classification and
  check-run aggregation.

External effects (child processes, the filesystem, the GitHub API) are
modelled as explicit oracles passed to the embedded functions, so every
definition is a pure, executable function of its inputs.
-/

namespace GWM

/-! ## Character-list string primitives

JavaScript string operations used by the source (`trim`, `split`,
`startsWith`, `substring`, `includes`, first-occurrence `replace`) are
modelled over `List Char` so that all definitions reduce structurally. -/

/-- JS whitespace test for `String.prototype.trim` (the common subset). -/
def jsIsWs (c : Char) : Bool :=
  c = ' ' ∨ c = '\t' ∨ c = '\n' ∨ c = '\r'

/-- Drop leading JS whitespace. -/
def charsDropLeadWs (cs : List Char) : List Char :=
  cs.dropWhile jsIsWs

/-- JS `String.prototype.trim` on character lists. -/
def charsTrim (cs : List Char) : List Char :=
  ((cs.dropWhile jsIsWs).reverse.dropWhile jsIsWs).reverse

/-- JS `s.trim()`. -/
def jsTrim (s : String) : String :=
  String.mk (charsTrim s.data)

/-- Split a character list at every occurrence of a separator character,
JS `s.split(sep)` semantics: always returns at least one (possibly empty)
piece. -/
def charsSplit (sep : Char) : List Char → List (List Char)
  | [] => [[]]
  | c :: cs =>
    let rest := charsSplit sep cs
    if c = sep then [] :: rest
    else
      match rest with
      | [] => [[c]]
      | p :: ps => (c :: p) :: ps

/-- JS `s.split(sep)` for a one-character separator. -/
def jsSplit (s : String) (sep : Char) : List String :=
  (charsSplit sep s.data).map String.mk

/-- Does `text` start with `pat`? (JS `startsWith`.) -/
def charsStartWith : List Char → List Char → Bool
  | [], _ => true
  | _ :: _, [] => false
  | p :: ps, t :: ts => p = t && charsStartWith ps ts

/-- JS `s.startsWith(pat)`. -/
def jsStartsWith (s pat : String) : Bool :=
  charsStartWith pat.data s.data

/-- Does `text` contain `pat` as a contiguous substring? -/
def charsHasSub (pat : List Char) : List Char → Bool
  | [] => charsStartWith pat []
  | t :: ts => charsStartWith pat (t :: ts) || charsHasSub pat ts

/-- JS `s.includes(pat)`. -/
def jsIncludes (s pat : String) : Bool :=
  charsHasSub pat.data s.data

/-- JS `s.substring(n)` (drop the first `n` characters). -/
def jsDrop (s : String) (n : Nat) : String :=
  String.mk (s.data.drop n)

/-- Remove the first occurrence of `pat` from `cs`
(JS `s.replace(pat, '')` with a string pattern replaces only the first
occurrence). -/
def charsRemoveFirst (pat : List Char) : List Char → List Char
  | [] => []
  | t :: ts =>
    if charsStartWith pat (t :: ts) then (t :: ts).drop pat.length
    else t :: charsRemoveFirst pat ts

/-- JS `s.replace(pat, '')` (first occurrence only). -/
def jsRemoveFirst (s pat : String) : String :=
  String.mk (charsRemoveFirst pat.data s.data)

/-! ## Worktree inventory (`listWorktrees`, `src/src/utils/git.ts` 65–102)

`git worktree list --porcelain` output is a sequence of labelled lines.
The parser keeps a partial record `current` and flushes it on each new
`worktree ` line, on each blank line, and at end of input; afterwards the
first record is marked `isMain`. -/

/-- A parsed worktree record (`interface Worktree` in `git.ts`; `branch`
and `commit` may be absent from a parsed record, so they are `Option`). -/
structure Worktree where
  path : String
  branch : Option String := none
  commit : Option String := none
  isMain : Bool := false
deriving Repr, DecidableEq

/-- The parser's in-progress record (`let current: Partial<Worktree>`). -/
structure PartialWT where
  path : Option String := none
  branch : Option String := none
  commit : Option String := none
  isMain : Bool := false
deriving Repr, DecidableEq

/-- Flush the partial record: `if (current.path) worktrees.push(current)`. -/
def PartialWT.flush (cur : PartialWT) : List Worktree :=
  match cur.path with
  | some p => [{ path := p, branch := cur.branch, commit := cur.commit, isMain := cur.isMain }]
  | none => []

/-- One loop iteration of the `listWorktrees` parser (git.ts 72–90). -/
def wtStep (st : List Worktree × PartialWT) (line : String) : List Worktree × PartialWT :=
  let acc := st.1
  let cur := st.2
  if jsStartsWith line "worktree " then
    (acc ++ cur.flush, { path := some (jsDrop line 9), isMain := false })
  else if jsStartsWith line "HEAD " then
    (acc, { cur with commit := some (jsDrop line 5) })
  else if jsStartsWith line "branch " then
    (acc, { cur with branch := some (jsRemoveFirst (jsDrop line 7) "refs/heads/") })
  else if line = "bare" then
    (acc, { cur with isMain := true })
  else if line = "" then
    if cur.path.isSome then (acc ++ cur.flush, {}) else (acc, cur)
  else
    (acc, cur)

/-- Mark the first parsed worktree as main (git.ts 96–99). -/
def markFirstMain : List Worktree → List Worktree
  | [] => []
  | w :: ws => { w with isMain := true } :: ws

/-- `listWorktrees` (git.ts 65–102) as a pure function of the porcelain
stdout of `git worktree list --porcelain`. -/
def listWorktrees (stdout : String) : List Worktree :=
  let lines := jsSplit (jsTrim stdout) '\n'
  let st := lines.foldl wtStep ([], {})
  markFirstMain (st.1 ++ st.2.flush)

/-! ## Path helpers (`node:path` as used by the `clean` command)

The command only joins an absolute directory with a plain entry name and
takes `dirname`/`basename` of absolute slash-separated paths, so the
model covers exactly that (no normalisation of `.`/`..` or trailing
slashes is needed for the inputs the command produces). -/

/-- `path.join(dir, name)` for a plain trailing component. -/
def nodeJoin (dir name : String) : String :=
  dir ++ "/" ++ name

/-- `path.dirname` for a slash-separated path without trailing slash. -/
def nodeDirname (p : String) : String :=
  let comps := jsSplit p '/'
  if comps.length ≤ 1 then "."
  else
    let d := String.intercalate "/" comps.dropLast
    if d = "" then "/" else d

/-- `path.basename` for a slash-separated path without trailing slash. -/
def nodeBasename (p : String) : String :=
  (jsSplit p '/').getLastD ""

/-! ## Path containment (`isPathInWorktree`, git.ts 248–250) -/

/-- `isPathInWorktree(currentPath, worktreePath)`: a plain string-prefix
test (`currentPath.startsWith(worktreePath)`). -/
def isPathInWorktree (currentPath worktreePath : String) : Bool :=
  jsStartsWith currentPath worktreePath

/-! ## Remote status resolver (`getPRStatus`, github utils)

The GitHub API calls are modelled as data already fetched: the
most-recent pull request for the branch (or `none` when the listing is
empty or any call threw), and the list of check-run conclusions for its
head commit (or `none` when that lookup threw). -/

/-- PR state as classified by `getPRStatus`. -/
inductive PRState where
  | opened
  | closed
  | merged
deriving Repr, DecidableEq

/-- Aggregated check-run status. -/
inductive ChecksStatus where
  | success
  | failure
  | pending
  | nothing
deriving Repr, DecidableEq

/-- The fields of the GitHub API pull-request object that `getPRStatus`
reads. `state` is the API lifecycle string; `merged_at` is the nullable
merge timestamp; `draft` is nullable; `conclusion` of a check run is
nullable, hence `Option String` below. -/
structure PRData where
  number : Nat
  state : String
  merged_at : Option String := none
  draft : Option Bool := none
  title : String := ""
  html_url : String := ""
  head_sha : String := ""
deriving Repr, DecidableEq

/-- State classification inside `getPRStatus`:
`if (pr.merged_at) 'merged' else if (pr.state === 'closed') 'closed'
else 'open'`. JS truthiness of the nullable string: a present but empty
string is falsy. -/
def classifyPRState (pr : PRData) : PRState :=
  if pr.merged_at.getD "" ≠ "" then PRState.merged
  else if pr.state = "closed" then PRState.closed
  else PRState.opened

/-- Check-run aggregation inside `getPRStatus`. The argument is `none`
when `octokit.rest.checks.listForRef` threw (the inner `catch` keeps
`'none'`); otherwise it is the list of run conclusions. `total_count` of
the response is the length of that list. -/
def aggregateChecks (runs : Option (List (Option String))) : ChecksStatus :=
  match runs with
  | none => ChecksStatus.nothing
  | some conclusions =>
    if conclusions.length > 0 then
      if conclusions.any (fun c => c = some "failure") then ChecksStatus.failure
      else if conclusions.all (fun c => c = some "success") then ChecksStatus.success
      else ChecksStatus.pending
    else ChecksStatus.nothing

/-- The record `getPRStatus` returns when a PR is found. -/
structure PRStatusResult where
  number : Nat
  state : PRState
  title : String
  url : String
  isDraft : Bool
  checksStatus : ChecksStatus
deriving Repr, DecidableEq

/-- `getPRStatus` as a function of the fetched data. The first argument
is `none` when the PR listing call (or token retrieval) threw — the outer
`catch` returns `null`; `some none` when the listing succeeded with zero
PRs; `some (some pr)` when a PR was found. The second argument is the
check-run fetch for `pr.head.sha` as in `aggregateChecks`. -/
def getPRStatus (lookup : Option (Option PRData))
    (checkRuns : Option (List (Option String))) : Option PRStatusResult :=
  match lookup with
  | none => none
  | some none => none
  | some (some pr) =>
    some { number := pr.number
           state := classifyPRState pr
           title := pr.title
           url := pr.html_url
           isDraft := pr.draft.getD false
           checksStatus := aggregateChecks checkRuns }

/-! ## Filesystem reconciler (`findAbandonedFolders` / `findOrphanWorktrees`)

The synchronous `node:fs` calls are modelled by a record of pure
functions; a `none` result of `statSync` / `readdirSync` / `readFileSync`
models the call throwing. -/

/-- The subset of `fs.Stats` the scans read. -/
structure FStat where
  isDirectory : Bool
  isFile : Bool
deriving Repr, DecidableEq

/-- The filesystem oracle. -/
structure FS where
  existsSync : String → Bool
  statSync : String → Option FStat
  readdirSync : String → Option (List String)
  readFileSync : String → Option String

/-- `AbandonedFolder` of the clean command. -/
structure AbandonedFolder where
  path : String
  dirname : String
  fileCount : Nat
  folderCount : Nat
deriving Repr, DecidableEq

/-- `OrphanWorktree` of the clean command. -/
structure OrphanWorktree where
  path : String
  dirname : String
  brokenGitdir : String
deriving Repr, DecidableEq

/-- Loop of `countContents` (clean command 48–68): a throwing `statSync`
hits the surrounding `catch`, which returns the counts accumulated so
far. -/
def countContentsLoop (fs : FS) (dirPath : String) :
    List String → Nat × Nat → Nat × Nat
  | [], acc => acc
  | e :: rest, (f, d) =>
    match fs.statSync (nodeJoin dirPath e) with
    | none => (f, d)
    | some st =>
      if st.isDirectory then countContentsLoop fs dirPath rest (f, d + 1)
      else countContentsLoop fs dirPath rest (f + 1, d)

/-- `countContents(dirPath)` → `(fileCount, folderCount)`. -/
def countContents (fs : FS) (dirPath : String) : Nat × Nat :=
  match fs.readdirSync dirPath with
  | none => (0, 0)
  | some entries => countContentsLoop fs dirPath entries (0, 0)

/-- Loop of `findAbandonedFolders` (clean command 80–101): a throwing
`statSync` hits the surrounding `catch`, which returns the entries
accumulated so far. -/
def abandonedLoop (fs : FS) (dir : String) :
    List String → List AbandonedFolder → List AbandonedFolder
  | [], acc => acc
  | e :: rest, acc =>
    let fullPath := nodeJoin dir e
    match fs.statSync fullPath with
    | none => acc
    | some st =>
      if st.isDirectory then
        if fs.existsSync (nodeJoin fullPath ".git") then
          abandonedLoop fs dir rest acc
        else
          let counts := countContents fs fullPath
          abandonedLoop fs dir rest
            (acc ++ [{ path := fullPath, dirname := e,
                       fileCount := counts.1, folderCount := counts.2 }])
      else abandonedLoop fs dir rest acc

/-- `findAbandonedFolders(worktreesDir)` (clean command 73–104). -/
def findAbandonedFolders (fs : FS) (worktreesDir : String) : List AbandonedFolder :=
  if fs.existsSync worktreesDir then
    match fs.readdirSync worktreesDir with
    | none => []
    | some entries => abandonedLoop fs worktreesDir entries []
  else []

/-- The linkage-target extraction of `findOrphanWorktrees`: the multiline
regex match of `gitdir:` followed by optional whitespace and a non-empty
rest-of-line capture, then `match[1].trim()`. The first line starting
with `gitdir:` and holding at least one further character matches, and
after the final `trim` the captured target equals the rest of that line
trimmed. (The whitespace run is modelled as same-line whitespace, which
agrees with the single-line `gitdir: <path>` linkage format the scan
reads.) -/
def parseGitdirTarget (content : String) : Option String :=
  (jsSplit content '\n').findSome? fun l =>
    if jsStartsWith l "gitdir:" ∧ 7 < l.length then some (jsTrim (jsDrop l 7))
    else none

/-- Loop of `findOrphanWorktrees` (clean command 116–150). A throwing
outer `statSync` aborts via the surrounding `catch` (returning the
accumulated list); a throwing `readFileSync` only skips the entry (inner
`catch`). -/
def orphanLoop (fs : FS) (dir : String) :
    List String → List OrphanWorktree → List OrphanWorktree
  | [], acc => acc
  | e :: rest, acc =>
    let fullPath := nodeJoin dir e
    match fs.statSync fullPath with
    | none => acc
    | some st =>
      if st.isDirectory then
        let gitPath := nodeJoin fullPath ".git"
        if fs.existsSync gitPath then
          match fs.statSync gitPath with
          | none => acc
          | some gitStat =>
            if gitStat.isFile then
              match fs.readFileSync gitPath with
              | none => orphanLoop fs dir rest acc
              | some content =>
                match parseGitdirTarget content with
                | none => orphanLoop fs dir rest acc
                | some gitdir =>
                  if fs.existsSync gitdir then orphanLoop fs dir rest acc
                  else orphanLoop fs dir rest
                    (acc ++ [{ path := fullPath, dirname := e, brokenGitdir := gitdir }])
            else orphanLoop fs dir rest acc
        else orphanLoop fs dir rest acc
      else orphanLoop fs dir rest acc

/-- `findOrphanWorktrees(worktreesDir)` (clean command 109–153). -/
def findOrphanWorktrees (fs : FS) (worktreesDir : String) : List OrphanWorktree :=
  if fs.existsSync worktreesDir then
    match fs.readdirSync worktreesDir with
    | none => []
    | some entries => orphanLoop fs worktreesDir entries []
  else []

/-! ## Clean command: classification phase (clean command 204–301)

The per-branch PR lookup and the per-path uncommitted-changes query are
external effects, modelled as oracles. A `none` PR lookup covers both
`getPRStatus` returning `null` and it throwing — the command treats both
identically (`continue`). `hasUncommittedChanges` catches its own errors
and returns a `Bool`, hence a total oracle. -/

/-- The external queries the classification phase issues. -/
structure CleanEnv where
  prStatus : String → Option PRStatusResult
  uncommitted : String → Bool

/-- `CleanableWorktree` of the clean command (its `prState` field is
`'merged' | 'closed'`, represented by `PRState` restricted by
construction). -/
structure CleanableWorktree where
  path : String
  dirname : String
  branch : String
  prState : PRState
  hasUncommittedChanges : Bool
deriving Repr, DecidableEq

/-- The gathering loop (clean command 224–252): skip records without a
branch, skip the current worktree, skip when the PR lookup yields nothing
or a PR that is neither merged nor closed; otherwise build a
`CleanableWorktree` annotated with the uncommitted-changes flag. -/
def gatherCleanable (currentPath : String) (env : CleanEnv) :
    List Worktree → List CleanableWorktree
  | [] => []
  | wt :: rest =>
    match wt.branch with
    | none => gatherCleanable currentPath env rest
    | some br =>
      if isPathInWorktree currentPath wt.path then
        gatherCleanable currentPath env rest
      else
        match env.prStatus br with
        | none => gatherCleanable currentPath env rest
        | some pr =>
          if pr.state = PRState.merged ∨ pr.state = PRState.closed then
            { path := wt.path, dirname := nodeBasename wt.path, branch := br,
              prState := pr.state,
              hasUncommittedChanges := env.uncommitted wt.path }
              :: gatherCleanable currentPath env rest
          else gatherCleanable currentPath env rest

/-- A checkbox choice value of the clean command (the display label and
the initial `checked := false` flag carry no information and are
omitted). -/
inductive ChoiceValue where
  | worktree (data : CleanableWorktree)
  | abandoned (data : AbandonedFolder)
  | orphan (data : OrphanWorktree)
deriving Repr, DecidableEq

/-- Everything the classification phase of the clean command produces. -/
structure CleanSets where
  worktreesDir : String
  filtered : List Worktree
  cleanable : List CleanableWorktree
  skipped : List CleanableWorktree
  toRemove : List CleanableWorktree
  abandonedFolders : List AbandonedFolder
  orphanWorktrees : List OrphanWorktree
  choices : List ChoiceValue
deriving Repr, DecidableEq, Inhabited

/-- The classification phase of the clean command (204–301): compute the
`<repo>-worktrees` sibling directory of the first (main) worktree, keep
only inventory records whose path contains it as a substring, gather the
stale candidates, partition them on the uncommitted-changes flag, scan
for abandoned folders and orphan worktrees, and build the checkbox
choices from `toRemove` plus both scans. Returns `none` only for an
empty inventory (the command always sees at least the main worktree). -/
def cleanClassify (worktrees : List Worktree) (repoName currentPath : String)
    (env : CleanEnv) (fs : FS) : Option CleanSets :=
  match worktrees with
  | [] => none
  | mainWt :: _ =>
    let worktreesDir := nodeJoin (nodeDirname mainWt.path) (repoName ++ "-worktrees")
    let filtered := worktrees.filter fun wt => jsIncludes wt.path worktreesDir
    let cleanable := gatherCleanable currentPath env filtered
    let skipped := cleanable.filter fun w => w.hasUncommittedChanges
    let toRemove := cleanable.filter fun w => !w.hasUncommittedChanges
    let abandonedFolders := findAbandonedFolders fs worktreesDir
    let orphanWorktrees := findOrphanWorktrees fs worktreesDir
    let choices := toRemove.map ChoiceValue.worktree
      ++ abandonedFolders.map ChoiceValue.abandoned
      ++ orphanWorktrees.map ChoiceValue.orphan
    some { worktreesDir := worktreesDir, filtered := filtered,
           cleanable := cleanable, skipped := skipped, toRemove := toRemove,
           abandonedFolders := abandonedFolders,
           orphanWorktrees := orphanWorktrees, choices := choices }

/-! ## Clean command: removal phase (clean command 354–403)

Each selected item is processed independently: a worktree item runs
`git worktree remove <path>` and, on success, the forced branch deletion
`git branch -D <branch>`; abandoned and orphan items run `rm -rf <path>`.
Every child-process invocation is modelled by one oracle from the full
argument vector to success or an error message. -/

/-- Argument vector of `removeWorktree` (git.ts 126–132). -/
def removeWorktreeArgs (path : String) (force : Bool) : List String :=
  ["worktree", "remove", path] ++ if force then ["--force"] else []

/-- Argument vector of `deleteBranch` (git.ts 137–140): forced deletion
uses `-D`, unforced `-d`. -/
def deleteBranchArgs (branch : String) (force : Bool) : List String :=
  ["branch", if force then "-D" else "-d", branch]

/-- The child-process oracle of the removal phase: command name and
argument vector to success or captured error message. -/
structure RemovalEnv where
  run : String → List String → Except String Unit

/-- Observable outcome of one loop iteration: which item was processed,
whether its removal was counted as removed (the `removed`/
`abandonedRemoved`/`orphanRemoved` counters) or failed (the matching
`failed` counter, with the printed error message), and — for a removed
worktree item only — whether the secondary branch deletion succeeded
(`branch deleted` vs. `branch kept` in the success message). -/
structure Outcome where
  item : ChoiceValue
  removed : Bool
  error : Option String
  branchDeleted : Option Bool
deriving Repr, DecidableEq

/-- One iteration of the removal loop (clean command 354–403). -/
def processItem (env : RemovalEnv) (item : ChoiceValue) : Outcome :=
  match item with
  | ChoiceValue.worktree wt =>
    match env.run "git" (removeWorktreeArgs wt.path false) with
    | Except.ok _ =>
      match env.run "git" (deleteBranchArgs wt.branch true) with
      | Except.ok _ => { item := item, removed := true, error := none, branchDeleted := some true }
      | Except.error _ => { item := item, removed := true, error := none, branchDeleted := some false }
    | Except.error e => { item := item, removed := false, error := some e, branchDeleted := none }
  | ChoiceValue.abandoned f =>
    match env.run "rm" ["-rf", f.path] with
    | Except.ok _ => { item := item, removed := true, error := none, branchDeleted := none }
    | Except.error e => { item := item, removed := false, error := some e, branchDeleted := none }
  | ChoiceValue.orphan o =>
    match env.run "rm" ["-rf", o.path] with
    | Except.ok _ => { item := item, removed := true, error := none, branchDeleted := none }
    | Except.error e => { item := item, removed := false, error := some e, branchDeleted := none }

/-- The removal loop over the selected items. -/
def processItems (env : RemovalEnv) (items : List ChoiceValue) : List Outcome :=
  items.map (processItem env)

/-! ## Unpushed-commit detection (`hasUnpushedCommits`, git.ts 317–345) -/

/-- Result record of `hasUnpushedCommits`. -/
structure UnpushedResult where
  hasUnpushed : Bool
  noRemote : Bool
deriving Repr, DecidableEq

/-- JS `parseInt(s, 10)`: optional sign, then leading decimal digits;
`none` models `NaN`. -/
def jsParseInt (s : String) : Option Int :=
  let signed : Int × List Char :=
    match s.data with
    | '-' :: r => (-1, r)
    | '+' :: r => (1, r)
    | r => (1, r)
  let digits := signed.2.takeWhile Char.isDigit
  if digits.isEmpty then none
  else some (signed.1 * (digits.foldl (fun n c => n * 10 + (c.toNat - '0'.toNat)) 0 : Nat))

/-- `hasUnpushedCommits(branch)` (git.ts 317–345) as a function of the
child-process oracle. The single `try`/`catch` turns a failure of either
git invocation into `{ hasUnpushed: false, noRemote: true }`; an empty
upstream resolution does the same; otherwise `hasUnpushed` is whether
the parsed commit count is greater than zero (a `NaN` count compares
false). -/
def hasUnpushedCommits (branch : String)
    (run : String → List String → Except String String) : UnpushedResult :=
  match run "git" ["rev-parse", "--abbrev-ref", branch ++ "@\x7bupstream\x7d"] with
  | Except.error _ => { hasUnpushed := false, noRemote := true }
  | Except.ok remoteBranch =>
    if jsTrim remoteBranch = "" then { hasUnpushed := false, noRemote := true }
    else
      match run "git" ["rev-list", "--count", jsTrim remoteBranch ++ ".." ++ branch] with
      | Except.error _ => { hasUnpushed := false, noRemote := true }
      | Except.ok stdout =>
        match jsParseInt (jsTrim stdout) with
        | some n => { hasUnpushed := decide (n > 0), noRemote := false }
        | none => { hasUnpushed := false, noRemote := false }

/-! ## Candidate function view of the gathering loop

`gatherCleanable` is the source-shaped loop; `cleanCandidate` is the body
of one iteration as an `Option`-valued function, used to reason about
membership in the gathered list. -/

/-- One iteration of the gathering loop as a candidate function. -/
def cleanCandidate (currentPath : String) (env : CleanEnv) (wt : Worktree) :
    Option CleanableWorktree :=
  match wt.branch with
  | none => none
  | some br =>
    if isPathInWorktree currentPath wt.path then none
    else
      match env.prStatus br with
      | none => none
      | some pr =>
        if pr.state = PRState.merged ∨ pr.state = PRState.closed then
          some { path := wt.path, dirname := nodeBasename wt.path, branch := br,
                 prState := pr.state,
                 hasUncommittedChanges := env.uncommitted wt.path }
        else none

/-! ## Concrete scenarios (inputs for the witness theorems) -/

/-- A filesystem where nothing exists and every call throws. -/
def fsEmpty : FS :=
  { existsSync := fun _ => false, statSync := fun _ => none,
    readdirSync := fun _ => none, readFileSync := fun _ => none }

/-- A merged-PR status result. -/
def prMerged : PRStatusResult :=
  { number := 7, state := PRState.merged, title := "t", url := "u",
    isDraft := false, checksStatus := ChecksStatus.nothing }

/-- Main worktree of the example repository `/h/repo`. -/
def wtMainEx : Worktree :=
  { path := "/h/repo", branch := some "main", commit := some "c0", isMain := true }

/-- A secondary worktree with a merged PR. -/
def wtFeatEx : Worktree :=
  { path := "/h/repo-worktrees/feat", branch := some "feat", commit := some "c1" }

/-- A worktree nested strictly below the caller's current path
`/h/repo-worktrees/feat`. -/
def wtNestedEx : Worktree :=
  { path := "/h/repo-worktrees/feat/sub", branch := some "fix", commit := some "c2" }

/-- Oracles: `feat` has a merged PR; every worktree is dirty. -/
def envDirty : CleanEnv :=
  { prStatus := fun br => if br = "feat" then some prMerged else none
    uncommitted := fun _ => true }

/-- Oracles: `fix` has a merged PR; every worktree is clean. -/
def envNested : CleanEnv :=
  { prStatus := fun br => if br = "fix" then some prMerged else none
    uncommitted := fun _ => false }

/-- The dirty stale candidate the classifier builds from `wtFeatEx` under
`envDirty`. -/
def wDirty : CleanableWorktree :=
  { path := "/h/repo-worktrees/feat", dirname := "feat", branch := "feat",
    prState := PRState.merged, hasUncommittedChanges := true }

/-- The clean stale candidate the classifier builds from `wtNestedEx`
under `envNested`. -/
def nestedCand : CleanableWorktree :=
  { path := "/h/repo-worktrees/feat/sub", dirname := "sub", branch := "fix",
    prState := PRState.merged, hasUncommittedChanges := false }

/-- Classifier output for the dirty-candidate scenario (caller standing
in the main worktree). -/
def setsDirty : CleanSets :=
  (cleanClassify [wtMainEx, wtFeatEx] "repo" "/h/repo" envDirty fsEmpty).getD default

/-- A worktrees root `/w` with one abandoned directory `/w/a` (no `.git`)
and one orphan directory `/w/b` (a `.git` file pointing at the missing
`/gone`). -/
def fsEx : FS :=
  { existsSync := fun s => s = "/w" || s = "/w/a" || s = "/w/b" || s = "/w/b/.git"
    statSync := fun s =>
      if s = "/w/a" then some { isDirectory := true, isFile := false }
      else if s = "/w/b" then some { isDirectory := true, isFile := false }
      else if s = "/w/b/.git" then some { isDirectory := false, isFile := true }
      else none
    readdirSync := fun s => if s = "/w" then some ["a", "b"] else none
    readFileSync := fun s => if s = "/w/b/.git" then some "gitdir: /gone\n" else none }

/-- Three selectable stale worktrees. -/
def cw1 : CleanableWorktree :=
  { path := "/w1", dirname := "w1", branch := "b1",
    prState := PRState.merged, hasUncommittedChanges := false }

/-- Second of the three selected items. -/
def cw2 : CleanableWorktree :=
  { path := "/w2", dirname := "w2", branch := "b2",
    prState := PRState.closed, hasUncommittedChanges := false }

/-- Third of the three selected items. -/
def cw3 : CleanableWorktree :=
  { path := "/w3", dirname := "w3", branch := "b3",
    prState := PRState.merged, hasUncommittedChanges := false }

/-- The three selected items of the partial-failure batch scenario. -/
def items3 : List ChoiceValue :=
  [ChoiceValue.worktree cw1, ChoiceValue.worktree cw2, ChoiceValue.worktree cw3]

/-- A process oracle where exactly the removal of `/w2` fails. -/
def envFail2 : RemovalEnv :=
  { run := fun _ args =>
      if args = removeWorktreeArgs "/w2" false then Except.error "boom"
      else Except.ok () }

/-- The recorded outcome of the failing second item. -/
def outcome2 : Outcome :=
  { item := ChoiceValue.worktree cw2, removed := false, error := some "boom",
    branchDeleted := none }

/-- A process oracle where worktree removal succeeds but the forced
branch deletion of `b1` fails. -/
def envBranchFail : RemovalEnv :=
  { run := fun _ args =>
      if args = deleteBranchArgs "b1" true then Except.error "branch boom"
      else Except.ok () }

/-- A pull request whose lifecycle state says `closed` but whose merge
timestamp is set. -/
def prDataD : PRData :=
  { number := 1, state := "closed", merged_at := some "2024-05-01T00:00:00Z",
    draft := some false, title := "d", html_url := "u", head_sha := "s" }

/-- A child-process oracle where the upstream ref of `b` resolves but the
subsequent commit-count query fails. -/
def runCountFails : String → List String → Except String String := fun _ args =>
  if args = ["rev-parse", "--abbrev-ref", "b" ++ "@\x7bupstream\x7d"] then
    Except.ok "origin/b\n"
  else Except.error "fatal"

/-! ## Helper lemmas -/

theorem markFirstMain_head (l : List Worktree) (w : Worktree) (ws : List Worktree)
    (h : markFirstMain l = w :: ws) : w.isMain = true := by
  cases l with
  | nil => simp [markFirstMain] at h
  | cons x xs =>
    simp only [markFirstMain, List.cons.injEq] at h
    rw [← h.1]

theorem gatherCleanable_eq_filterMap (cp : String) (env : CleanEnv) :
    ∀ l : List Worktree,
      gatherCleanable cp env l = l.filterMap (cleanCandidate cp env)
  | [] => rfl
  | wt :: rest => by
    rw [gatherCleanable, List.filterMap_cons, cleanCandidate]
    cases wt.branch with
    | none => exact gatherCleanable_eq_filterMap cp env rest
    | some br =>
      by_cases hip : isPathInWorktree cp wt.path = true
      · simp [hip, gatherCleanable_eq_filterMap cp env rest]
      · simp only [hip, Bool.false_eq_true, if_false]
        cases env.prStatus br with
        | none => simp [gatherCleanable_eq_filterMap cp env rest]
        | some pr =>
          by_cases hst : pr.state = PRState.merged ∨ pr.state = PRState.closed
          · simp [hst, gatherCleanable_eq_filterMap cp env rest]
          · simp [hst, gatherCleanable_eq_filterMap cp env rest]

theorem mem_gatherCleanable {cp : String} {env : CleanEnv}
    {l : List Worktree} {w : CleanableWorktree}
    (h : w ∈ gatherCleanable cp env l) :
    ∃ wt, wt ∈ l ∧ cleanCandidate cp env wt = some w := by
  rw [gatherCleanable_eq_filterMap] at h
  exact List.mem_filterMap.mp h

theorem cleanCandidate_some {cp : String} {env : CleanEnv}
    {wt : Worktree} {w : CleanableWorktree}
    (h : cleanCandidate cp env wt = some w) :
    w.path = wt.path ∧ isPathInWorktree cp wt.path = false := by
  unfold cleanCandidate at h
  split at h
  · exact absurd h (by simp)
  next br hbr =>
    split at h
    · exact absurd h (by simp)
    next hip =>
      split at h
      · exact absurd h (by simp)
      next pr hpr =>
        split at h
        next hst =>
          refine ⟨?_, by simpa using hip⟩
          rw [Option.some.injEq] at h
          rw [← h]
        next hst => exact absurd h (by simp)

theorem cleanClassify_eq {worktrees : List Worktree}
    {repoName currentPath : String} {env : CleanEnv} {fs : FS} {sets : CleanSets}
    (hc : cleanClassify worktrees repoName currentPath env fs = some sets) :
    sets.filtered = worktrees.filter (fun wt => jsIncludes wt.path sets.worktreesDir) ∧
    sets.cleanable = gatherCleanable currentPath env sets.filtered ∧
    sets.skipped = sets.cleanable.filter (fun w => w.hasUncommittedChanges) ∧
    sets.toRemove = sets.cleanable.filter (fun w => !w.hasUncommittedChanges) ∧
    sets.choices = sets.toRemove.map ChoiceValue.worktree
      ++ sets.abandonedFolders.map ChoiceValue.abandoned
      ++ sets.orphanWorktrees.map ChoiceValue.orphan := by
  cases worktrees with
  | nil => simp [cleanClassify] at hc
  | cons m rest =>
    simp only [cleanClassify, Option.some.injEq] at hc
    subst hc
    exact ⟨rfl, rfl, rfl, rfl, rfl⟩

theorem abandonedLoop_mem {fs : FS} {dir : String} :
    ∀ {entries : List String} {acc : List AbandonedFolder} {a : AbandonedFolder},
      a ∈ abandonedLoop fs dir entries acc →
      a ∈ acc ∨ fs.existsSync (nodeJoin a.path ".git") = false
  | [], acc, a, h => Or.inl h
  | e :: rest, acc, a, h => by
    rw [abandonedLoop] at h
    split at h
    · exact Or.inl h
    next st hst =>
      split at h
      next hd =>
        split at h
        next hg => exact abandonedLoop_mem h
        next hg =>
          rcases abandonedLoop_mem h with hmem | hP
          · rcases List.mem_append.mp hmem with hacc | hnew
            · exact Or.inl hacc
            · refine Or.inr ?_
              have ha : a.path = nodeJoin dir e := by
                rw [List.mem_singleton.mp hnew]
              rw [ha]
              simpa using hg
          · exact Or.inr hP
      next hd => exact abandonedLoop_mem h

theorem orphanLoop_mem {fs : FS} {dir : String} :
    ∀ {entries : List String} {acc : List OrphanWorktree} {o : OrphanWorktree},
      o ∈ orphanLoop fs dir entries acc →
      o ∈ acc ∨ fs.existsSync (nodeJoin o.path ".git") = true
  | [], acc, o, h => Or.inl h
  | e :: rest, acc, o, h => by
    rw [orphanLoop] at h
    split at h
    · exact Or.inl h
    next st hst =>
      split at h
      next hd =>
        dsimp only at h
        split at h
        next hg =>
          split at h
          · exact Or.inl h
          next gitStat hgs =>
            split at h
            next hf =>
              split at h
              · exact orphanLoop_mem h
              next content hrd =>
                split at h
                · exact orphanLoop_mem h
                next gitdir hpg =>
                  split at h
                  next hex => exact orphanLoop_mem h
                  next hex =>
                    rcases orphanLoop_mem h with hmem | hP
                    · rcases List.mem_append.mp hmem with hacc | hnew
                      · exact Or.inl hacc
                      · refine Or.inr ?_
                        have ho : o.path = nodeJoin dir e := by
                          rw [List.mem_singleton.mp hnew]
                        rw [ho]
                        exact hg
                    · exact Or.inr hP
            next hf => exact orphanLoop_mem h
        next hg => exact orphanLoop_mem h
      next hd => exact orphanLoop_mem h

theorem findAbandonedFolders_gitless {fs : FS} {worktreesDir : String}
    {a : AbandonedFolder} (h : a ∈ findAbandonedFolders fs worktreesDir) :
    fs.existsSync (nodeJoin a.path ".git") = false := by
  unfold findAbandonedFolders at h
  by_cases hex : fs.existsSync worktreesDir = true
  · rw [if_pos hex] at h
    cases hrd : fs.readdirSync worktreesDir with
    | none => rw [hrd] at h; simp at h
    | some entries =>
      rw [hrd] at h
      rcases abandonedLoop_mem h with hacc | hP
      · simp at hacc
      · exact hP
  · rw [if_neg hex] at h; simp at h

theorem findOrphanWorktrees_hasGit {fs : FS} {worktreesDir : String}
    {o : OrphanWorktree} (h : o ∈ findOrphanWorktrees fs worktreesDir) :
    fs.existsSync (nodeJoin o.path ".git") = true := by
  unfold findOrphanWorktrees at h
  by_cases hex : fs.existsSync worktreesDir = true
  · rw [if_pos hex] at h
    cases hrd : fs.readdirSync worktreesDir with
    | none => rw [hrd] at h; simp at h
    | some entries =>
      rw [hrd] at h
      rcases orphanLoop_mem h with hacc | hP
      · simp at hacc
      · exact hP
  · rw [if_neg hex] at h; simp at h

theorem processItem_dichotomy (env : RemovalEnv) (item : ChoiceValue) :
    ((processItem env item).removed = true ∧ (processItem env item).error = none) ∨
    ((processItem env item).removed = false ∧
      (processItem env item).error.isSome = true) := by
  cases item with
  | worktree wt =>
    cases hrw : env.run "git" (removeWorktreeArgs wt.path false) with
    | ok u =>
      cases hdb : env.run "git" (deleteBranchArgs wt.branch true) with
      | ok v => left; simp [processItem, hrw, hdb]
      | error e => left; simp [processItem, hrw, hdb]
    | error e => right; simp [processItem, hrw]
  | abandoned f =>
    cases hrun : env.run "rm" ["-rf", f.path] with
    | ok u => left; simp [processItem, hrun]
    | error e => right; simp [processItem, hrun]
  | orphan o =>
    cases hrun : env.run "rm" ["-rf", o.path] with
    | ok u => left; simp [processItem, hrun]
    | error e => right; simp [processItem, hrun]

/-! ## Claims -/

/-- **C1**: every stale-worktree candidate built by the clean command's
classification phase with `hasUncommittedChanges = true` appears in the
skipped set and never in the selectable set: it is not in `toRemove`,
not among the checkbox choices, and hence not in any selection drawn
from the choices (the items passed to removal). -/
theorem C1_uncommitted_candidates_only_skipped
    (worktrees : List Worktree) (repoName currentPath : String)
    (env : CleanEnv) (fs : FS) (sets : CleanSets) (w : CleanableWorktree)
    (hc : cleanClassify worktrees repoName currentPath env fs = some sets)
    (hw : w ∈ sets.cleanable) (hu : w.hasUncommittedChanges = true) :
    w ∈ sets.skipped ∧ w ∉ sets.toRemove ∧
      ChoiceValue.worktree w ∉ sets.choices ∧
      ∀ sel : List ChoiceValue, (∀ x ∈ sel, x ∈ sets.choices) →
        ChoiceValue.worktree w ∉ sel := by
  obtain ⟨-, -, hskip, hrem, hch⟩ := cleanClassify_eq hc
  have h2 : w ∉ sets.toRemove := by
    rw [hrem]
    intro hmem
    have := (List.mem_filter.mp hmem).2
    simp [hu] at this
  have h3 : ChoiceValue.worktree w ∉ sets.choices := by
    rw [hch]
    intro hmem
    rcases List.mem_append.mp hmem with hmem | hmem
    · rcases List.mem_append.mp hmem with hmem | hmem
      · obtain ⟨a, ha, hae⟩ := List.mem_map.mp hmem
        injection hae with he
        subst he
        exact h2 ha
      · obtain ⟨a, ha, hae⟩ := List.mem_map.mp hmem
        simp at hae
    · obtain ⟨a, ha, hae⟩ := List.mem_map.mp hmem
      simp at hae
  refine ⟨?_, h2, h3, fun sel hsub hmem => h3 (hsub _ hmem)⟩
  rw [hskip]
  exact List.mem_filter.mpr ⟨hw, by simp [hu]⟩

/-- Witness for C1: in the `setsDirty` scenario the dirty merged
candidate is skipped and not selectable. -/
theorem C1_uncommitted_candidates_only_skipped_witness :
    wDirty ∈ setsDirty.skipped ∧ wDirty ∉ setsDirty.toRemove ∧
      ChoiceValue.worktree wDirty ∉ setsDirty.choices :=
  have h := C1_uncommitted_candidates_only_skipped
    [wtMainEx, wtFeatEx] "repo" "/h/repo" envDirty fsEmpty setsDirty wDirty
    (by decide) (by decide) (by decide)
  ⟨h.1, h.2.1, h.2.2.1⟩

/-- **C2** counterexample: a worktree whose path is strictly nested under
the caller's current path (`/h/repo-worktrees/feat/sub` under
`/h/repo-worktrees/feat`) is *not* excluded: it shows up in the
selectable set (`toRemove` and the choices) produced by the clean
command, contradicting the claim that such a record is never present. -/
theorem C2_nested_worktree_not_excluded_counterexample :
    jsStartsWith nestedCand.path ("/h/repo-worktrees/feat" ++ "/") = true ∧
    (cleanClassify [wtMainEx, wtNestedEx] "repo" "/h/repo-worktrees/feat"
        envNested fsEmpty).map
        (fun sets => (sets.skipped, sets.toRemove, sets.choices)) =
      some ([], [nestedCand], [ChoiceValue.worktree nestedCand]) := by
  exact ⟨by decide, by decide⟩

/-- **C2** amended: the clean command excludes exactly the records `wt`
with `currentPath.startsWith(wt.path)` — the worktree whose path equals
the caller's current worktree path or under which the caller's current
path is nested. No classified candidate (cleanable, skipped, toRemove,
or a worktree choice) satisfies that prefix test; a worktree strictly
nested under the caller's current path is not excluded. -/
theorem C2_exclusion_is_prefix_test
    (worktrees : List Worktree) (repoName currentPath : String)
    (env : CleanEnv) (fs : FS) (sets : CleanSets)
    (hc : cleanClassify worktrees repoName currentPath env fs = some sets) :
    (∀ w ∈ sets.cleanable, isPathInWorktree currentPath w.path = false) ∧
    (∀ w ∈ sets.skipped, isPathInWorktree currentPath w.path = false) ∧
    (∀ w ∈ sets.toRemove, isPathInWorktree currentPath w.path = false) ∧
    (∀ w, ChoiceValue.worktree w ∈ sets.choices →
      isPathInWorktree currentPath w.path = false) := by
  obtain ⟨-, hcl, hskip, hrem, hch⟩ := cleanClassify_eq hc
  have hmain : ∀ w ∈ sets.cleanable, isPathInWorktree currentPath w.path = false := by
    intro w hw
    rw [hcl] at hw
    obtain ⟨wt, -, hcand⟩ := mem_gatherCleanable hw
    obtain ⟨hp, hip⟩ := cleanCandidate_some hcand
    rw [hp]
    exact hip
  refine ⟨hmain, ?_, ?_, ?_⟩
  · intro w hw
    exact hmain w (by rw [hskip] at hw; exact (List.mem_filter.mp hw).1)
  · intro w hw
    exact hmain w (by rw [hrem] at hw; exact (List.mem_filter.mp hw).1)
  · intro w hw
    rw [hch] at hw
    rcases List.mem_append.mp hw with hmem | hmem
    · rcases List.mem_append.mp hmem with hmem | hmem
      · obtain ⟨a, ha, hae⟩ := List.mem_map.mp hmem
        injection hae with he
        subst he
        exact hmain a (by rw [hrem] at ha; exact (List.mem_filter.mp ha).1)
      · obtain ⟨a, ha, hae⟩ := List.mem_map.mp hmem
        simp at hae
    · obtain ⟨a, ha, hae⟩ := List.mem_map.mp hmem
      simp at hae

/-- Witness for the amended C2 at the `setsDirty` scenario. -/
theorem C2_exclusion_is_prefix_test_witness :
    isPathInWorktree "/h/repo" wDirty.path = false :=
  (C2_exclusion_is_prefix_test [wtMainEx, wtFeatEx] "repo" "/h/repo" envDirty
      fsEmpty setsDirty (by decide)).1 wDirty (by decide)

/-- **C3** counterexample: a porcelain listing whose second record
carries a `bare` marker yields `isMain = true` on that second record as
well — the final fixup only sets the first record's flag, it never
clears a later one — contradicting "isMain is true only for the first
record". -/
theorem C3_bare_after_first_keeps_main_flag_counterexample :
    (listWorktrees "worktree /repo\nHEAD abc\n\nworktree /bare-repo\nbare").map
        Worktree.isMain = [true, true] := by
  decide

/-- **C3** amended: the first returned record is always marked
`isMain = true`, regardless of its content; but uniqueness fails — a
record after the first that carried a `bare` marker keeps
`isMain = true` (see the counterexample). -/
theorem C3_first_record_always_main (stdout : String) (w : Worktree)
    (ws : List Worktree) (h : listWorktrees stdout = w :: ws) :
    w.isMain = true :=
  markFirstMain_head _ w ws h

/-- Witness for the amended C3 on a one-record listing. -/
theorem C3_first_record_always_main_witness :
    ({ path := "/a", branch := none, commit := none, isMain := true } : Worktree).isMain
      = true :=
  C3_first_record_always_main "worktree /a"
    { path := "/a", branch := none, commit := none, isMain := true } [] (by decide)

/-- **C4**: the removal loop records exactly one outcome per selected
item (the outcome list has the same length, and the i-th outcome is a
function of the i-th item alone, so one item's failure cannot abort or
alter the processing of the others), and every outcome is either
removed-with-no-error or failed-with-an-error-text. -/
theorem C4_removal_batch_outcomes (env : RemovalEnv) (items : List ChoiceValue) :
    (processItems env items).length = items.length ∧
    (∀ i : Nat, (processItems env items)[i]? = (items[i]?).map (processItem env)) ∧
    (∀ o ∈ processItems env items,
      (o.removed = true ∧ o.error = none) ∨
      (o.removed = false ∧ o.error.isSome = true)) := by
  refine ⟨by simp [processItems], ?_, ?_⟩
  · intro i
    simp [processItems, List.getElem?_map]
  · intro o ho
    obtain ⟨item, -, rfl⟩ := List.mem_map.mp ho
    exact processItem_dichotomy env item

/-- Witness for C4: three selected worktree items where only the second
item's removal fails yield outcomes removed / failed "boom" / removed. -/
theorem C4_removal_batch_outcomes_witness :
    (processItems envFail2 items3).length = items3.length ∧
    ((outcome2.removed = true ∧ outcome2.error = none) ∨
      (outcome2.removed = false ∧ outcome2.error.isSome = true)) ∧
    (processItems envFail2 items3).map (fun o => (o.removed, o.error)) =
      [(true, none), (false, some "boom"), (true, none)] :=
  ⟨(C4_removal_batch_outcomes envFail2 items3).1,
   (C4_removal_batch_outcomes envFail2 items3).2.2 outcome2 (by decide),
   by decide⟩

/-- **C5**: when a stale-worktree item's `git worktree remove` succeeds,
the loop then attempts the forced branch deletion (`git branch -D`), and
whatever that second step returns, the item stays counted as removed
with no error; the branch-deletion result is reported separately in the
`branchDeleted` component. -/
theorem C5_branch_deletion_independent (env : RemovalEnv) (wt : CleanableWorktree)
    (h : env.run "git" (removeWorktreeArgs wt.path false) = Except.ok ()) :
    (processItem env (ChoiceValue.worktree wt)).removed = true ∧
    (processItem env (ChoiceValue.worktree wt)).error = none ∧
    (processItem env (ChoiceValue.worktree wt)).branchDeleted =
      some (match env.run "git" (deleteBranchArgs wt.branch true) with
            | Except.ok _ => true
            | Except.error _ => false) ∧
    deleteBranchArgs wt.branch true = ["branch", "-D", wt.branch] := by
  cases hdb : env.run "git" (deleteBranchArgs wt.branch true) with
  | ok u =>
    refine ⟨?_, ?_, ?_, by simp [deleteBranchArgs]⟩ <;> simp [processItem, h, hdb]
  | error e =>
    refine ⟨?_, ?_, ?_, by simp [deleteBranchArgs]⟩ <;> simp [processItem, h, hdb]

/-- Witness for C5: worktree removal succeeds, forced branch deletion of
`b1` fails, and the item is still recorded removed with the branch
failure reported separately. -/
theorem C5_branch_deletion_independent_witness :
    (processItem envBranchFail (ChoiceValue.worktree cw1)).removed = true ∧
    (processItem envBranchFail (ChoiceValue.worktree cw1)).error = none ∧
    (processItem envBranchFail (ChoiceValue.worktree cw1)).branchDeleted = some false :=
  have h := C5_branch_deletion_independent envBranchFail cw1 (by rfl)
  ⟨h.1, h.2.1, by decide⟩

/-- **C6**: `getPRStatus` classifies a returned pull request as `merged`
whenever its merge timestamp is set (a non-empty `merged_at`), even when
its own lifecycle state field says `closed`; else as `closed` when the
lifecycle state is `closed`; else as `open`. -/
theorem C6_pr_state_classification (pr : PRData)
    (checks : Option (List (Option String))) :
    (∀ t, pr.merged_at = some t → t ≠ "" →
      (getPRStatus (some (some pr)) checks).map PRStatusResult.state =
        some PRState.merged) ∧
    (pr.merged_at = none → pr.state = "closed" →
      (getPRStatus (some (some pr)) checks).map PRStatusResult.state =
        some PRState.closed) ∧
    (pr.merged_at = none → pr.state ≠ "closed" →
      (getPRStatus (some (some pr)) checks).map PRStatusResult.state =
        some PRState.opened) := by
  refine ⟨?_, ?_, ?_⟩
  · intro t ht hne
    simp [getPRStatus, classifyPRState, ht, hne]
  · intro hm hs
    simp [getPRStatus, classifyPRState, hm, hs]
  · intro hm hs
    simp [getPRStatus, classifyPRState, hm, hs]

/-- Witness for C6 (Scenario D): a PR whose lifecycle state is `closed`
but whose merge timestamp is set classifies as merged. -/
theorem C6_pr_state_classification_witness :
    (getPRStatus (some (some prDataD)) none).map PRStatusResult.state =
      some PRState.merged :=
  (C6_pr_state_classification prDataD none).1 "2024-05-01T00:00:00Z"
    (by decide) (by decide)

/-- **C7**: check-run aggregation — `failure` if at least one run
concluded failure; else `success` if every run concluded success; else
`pending`; and `none` when zero runs exist or the lookup failed; in
particular `[success, failure, success]` aggregates to `failure`. -/
theorem C7_checks_aggregation :
    (∀ l : List (Option String), some "failure" ∈ l →
      aggregateChecks (some l) = ChecksStatus.failure) ∧
    (∀ l : List (Option String), l ≠ [] → (∀ c ∈ l, c = some "success") →
      aggregateChecks (some l) = ChecksStatus.success) ∧
    (∀ l : List (Option String), l ≠ [] → some "failure" ∉ l →
      (∃ c ∈ l, c ≠ some "success") →
      aggregateChecks (some l) = ChecksStatus.pending) ∧
    aggregateChecks (some []) = ChecksStatus.nothing ∧
    aggregateChecks none = ChecksStatus.nothing ∧
    aggregateChecks (some [some "success", some "failure", some "success"]) =
      ChecksStatus.failure := by
  refine ⟨?_, ?_, ?_, by decide, rfl, by decide⟩
  · intro l hmem
    have hlen : l.length > 0 :=
      List.length_pos.mpr (by rintro rfl; simp at hmem)
    have hany : l.any (fun c => c = some "failure") = true := by
      simp only [List.any_eq_true, decide_eq_true_eq]
      exact ⟨_, hmem, rfl⟩
    simp [aggregateChecks, hlen, hany]
  · intro l hne hall
    have hlen : l.length > 0 := List.length_pos.mpr hne
    have hallb : l.all (fun c => c = some "success") = true := by
      simp only [List.all_eq_true, decide_eq_true_eq]
      exact hall
    have hany : l.any (fun c => c = some "failure") = false := by
      rw [Bool.eq_false_iff]
      intro hanyt
      obtain ⟨c, hc, hcf⟩ := List.any_eq_true.mp hanyt
      have hcf2 : c = some "failure" := of_decide_eq_true hcf
      have hcs := hall c hc
      rw [hcf2] at hcs
      simp at hcs
    simp [aggregateChecks, hlen, hany, hallb]
  · intro l hne hnf hex
    have hlen : l.length > 0 := List.length_pos.mpr hne
    obtain ⟨c0, hc0, hc0ne⟩ := hex
    have hallb : l.all (fun c => c = some "success") = false := by
      rw [Bool.eq_false_iff]
      intro hallt
      exact hc0ne (of_decide_eq_true (List.all_eq_true.mp hallt c0 hc0))
    have hany : l.any (fun c => c = some "failure") = false := by
      rw [Bool.eq_false_iff]
      intro hanyt
      obtain ⟨c, hc, hcf⟩ := List.any_eq_true.mp hanyt
      exact hnf (of_decide_eq_true hcf ▸ hc)
    simp [aggregateChecks, hlen, hany, hallb]

/-- Witness for C7: a failing run forces `failure`, all-success forces
`success`, and a null conclusion (run still pending) forces `pending`. -/
theorem C7_checks_aggregation_witness :
    aggregateChecks (some [some "failure"]) = ChecksStatus.failure ∧
    aggregateChecks (some [some "success"]) = ChecksStatus.success ∧
    aggregateChecks (some [none]) = ChecksStatus.pending :=
  ⟨C7_checks_aggregation.1 [some "failure"] (by decide),
   C7_checks_aggregation.2.1 [some "success"] (by decide) (by decide),
   C7_checks_aggregation.2.2.1 [none] (by decide) (by decide)
     ⟨none, by decide, by decide⟩⟩

/-- **C8**: the abandoned scan and the orphan scan never classify the
same directory: an abandoned folder's `.git` entry does not exist while
an orphan's does, for the same filesystem state, so no path is in both
result lists. -/
theorem C8_abandoned_orphan_disjoint (fs : FS) (worktreesDir p : String)
    (ha : p ∈ (findAbandonedFolders fs worktreesDir).map AbandonedFolder.path) :
    p ∉ (findOrphanWorktrees fs worktreesDir).map OrphanWorktree.path := by
  intro ho
  obtain ⟨a, haMem, hap⟩ := List.mem_map.mp ha
  obtain ⟨o, hoMem, hop⟩ := List.mem_map.mp ho
  have h1 := findAbandonedFolders_gitless haMem
  have h2 := findOrphanWorktrees_hasGit hoMem
  have heq : o.path = a.path := hop.trans hap.symm
  rw [heq] at h2
  rw [h1] at h2
  exact Bool.noConfusion h2

/-- Witness for C8 at the concrete `fsEx` filesystem: the abandoned path
`/w/a` is not among the orphan paths. -/
theorem C8_abandoned_orphan_disjoint_witness :
    "/w/a" ∉ (findOrphanWorktrees fsEx "/w").map OrphanWorktree.path :=
  C8_abandoned_orphan_disjoint fsEx "/w" "/w/a" (by decide)

/-- **C9**: the clean command touches only inventory records whose path
contains the computed `<repo>-worktrees` directory as a substring: every
record of the filtered inventory, every classified candidate, and every
worktree item among the destructive-phase choices satisfies the
substring test, and a record located elsewhere never enters the filtered
set. -/
theorem C9_only_worktrees_dir_touched
    (worktrees : List Worktree) (repoName currentPath : String)
    (env : CleanEnv) (fs : FS) (sets : CleanSets)
    (hc : cleanClassify worktrees repoName currentPath env fs = some sets) :
    (∀ wt ∈ sets.filtered, jsIncludes wt.path sets.worktreesDir = true) ∧
    (∀ w ∈ sets.cleanable, jsIncludes w.path sets.worktreesDir = true) ∧
    (∀ w, ChoiceValue.worktree w ∈ sets.choices →
      jsIncludes w.path sets.worktreesDir = true) ∧
    (∀ wt ∈ worktrees, jsIncludes wt.path sets.worktreesDir = false →
      wt ∉ sets.filtered) := by
  obtain ⟨hf, hcl, hskip, hrem, hch⟩ := cleanClassify_eq hc
  have h1 : ∀ wt ∈ sets.filtered, jsIncludes wt.path sets.worktreesDir = true := by
    intro wt hwt
    rw [hf] at hwt
    exact (List.mem_filter.mp hwt).2
  have h2 : ∀ w ∈ sets.cleanable, jsIncludes w.path sets.worktreesDir = true := by
    intro w hw
    rw [hcl] at hw
    obtain ⟨wt, hwtmem, hcand⟩ := mem_gatherCleanable hw
    obtain ⟨hp, -⟩ := cleanCandidate_some hcand
    rw [hp]
    exact h1 wt hwtmem
  refine ⟨h1, h2, ?_, ?_⟩
  · intro w hw
    rw [hch] at hw
    rcases List.mem_append.mp hw with hmem | hmem
    · rcases List.mem_append.mp hmem with hmem | hmem
      · obtain ⟨a, ha, hae⟩ := List.mem_map.mp hmem
        injection hae with he
        subst he
        exact h2 a (by rw [hrem] at ha; exact (List.mem_filter.mp ha).1)
      · obtain ⟨a, ha, hae⟩ := List.mem_map.mp hmem
        simp at hae
    · obtain ⟨a, ha, hae⟩ := List.mem_map.mp hmem
      simp at hae
  · intro wt hwt hninc hmem
    rw [h1 wt hmem] at hninc
    exact Bool.noConfusion hninc

/-- Witness for C9 at the `setsDirty` scenario. -/
theorem C9_only_worktrees_dir_touched_witness :
    jsIncludes wDirty.path setsDirty.worktreesDir = true :=
  (C9_only_worktrees_dir_touched [wtMainEx, wtFeatEx] "repo" "/h/repo" envDirty
      fsEmpty setsDirty (by decide)).2.1 wDirty (by decide)

/-- **C10**: `hasUnpushedCommits` reports
`{hasUnpushed := false, noRemote := true}` whenever either underlying
git query fails — including a failing commit-count query after a
successful upstream resolution — and `hasUnpushed` is true only when the
upstream resolves non-empty and the count query succeeds with a parsed
count greater than zero. -/
theorem C10_failures_mean_no_remote (branch : String)
    (run : String → List String → Except String String) :
    (∀ e, run "git" ["rev-parse", "--abbrev-ref", branch ++ "@\x7bupstream\x7d"] =
        Except.error e →
      hasUnpushedCommits branch run = { hasUnpushed := false, noRemote := true }) ∧
    (∀ rb e, run "git" ["rev-parse", "--abbrev-ref", branch ++ "@\x7bupstream\x7d"] =
        Except.ok rb →
      jsTrim rb ≠ "" →
      run "git" ["rev-list", "--count", jsTrim rb ++ ".." ++ branch] =
        Except.error e →
      hasUnpushedCommits branch run = { hasUnpushed := false, noRemote := true }) ∧
    ((hasUnpushedCommits branch run).hasUnpushed = true →
      ∃ rb out n,
        run "git" ["rev-parse", "--abbrev-ref", branch ++ "@\x7bupstream\x7d"] =
          Except.ok rb ∧
        jsTrim rb ≠ "" ∧
        run "git" ["rev-list", "--count", jsTrim rb ++ ".." ++ branch] =
          Except.ok out ∧
        jsParseInt (jsTrim out) = some n ∧ 0 < n) := by
  refine ⟨?_, ?_, ?_⟩
  · intro e he
    simp [hasUnpushedCommits, he]
  · intro rb e hok hne herr
    simp [hasUnpushedCommits, hok, hne, herr]
  · intro h
    unfold hasUnpushedCommits at h
    split at h
    · simp at h
    next rb hok =>
      split at h
      · simp at h
      next hne =>
        split at h
        · simp at h
        next out hcount =>
          split at h
          next n hparse =>
            refine ⟨rb, out, n, hok, by simpa using hne, hcount, hparse, ?_⟩
            simpa using h
          next hparse => simp at h

/-- Witness for C10: the upstream of `b` resolves to `origin/b` but the
commit-count query fails, and the result is "no remote". -/
theorem C10_failures_mean_no_remote_witness :
    hasUnpushedCommits "b" runCountFails =
      { hasUnpushed := false, noRemote := true } :=
  (C10_failures_mean_no_remote "b" runCountFails).2.1 "origin/b\n" "fatal"
    (by rfl) (by decide) (by rfl)

end GWM
